import Mathlib

set_option maxHeartbeats 1000000

/-! Shallow embedding of the value-lifecycle / register-allocation layer of the
copy-and-patch code generator (src/codegen/mod.rs), together with a machine-level
interpreter for the emitted backend primitives. The stencil backend
(copy_patch module), the calling-convention wrapper and the memory mapping are
external to the embedded source file; where a theorem needs their behavior they
are modelled from the specification, as marked in the doc comments.

Fallible paths of the source (Rust panics via unreachable/todo assertions and
out-of-bounds indexing) are embedded as Option, with none meaning a fatal fault. -/

/-- Semantic value types (ir::DataType as consumed by this layer). -/
inductive DataType
  | I64
  | Bool
deriving DecidableEq

/-- Inline constants (ir::ConstValue as consumed by this layer). -/
inductive ConstValue
  | I64 (n : Int)
  | Bool (b : Bool)
deriving DecidableEq

/-- ConstValue::get_type. -/
def ConstValue.get_type : ConstValue → DataType
  | .I64 _ => .I64
  | .Bool _ => .Bool

/-- CGValue from src/codegen/mod.rs: one entry of the value table. -/
inductive CGValue
  | Variable (data_type : DataType) (stack_pos : Nat) (readonly : Bool)
  | Constant (c : ConstValue)
  | Free (slot : Option Nat)
deriving DecidableEq

/-- The primitive emission operations of the CopyPatchBackend, as invoked by
src/codegen/mod.rs (generate_take_1_stack, generate_take_1_const,
generate_take_2_stack, generate_take_2_const, generate_duplex,
generate_put_stack, generate_add, generate_add_const, generate_ret). The
backend itself only appends the corresponding stencil bytes, so the emission
log is embedded as a list of these operations. -/
inductive CPOp
  | take1Stack (ofs : Nat)
  | take1Const (c : ConstValue)
  | take2Stack (ofs : Nat)
  | take2Const (c : ConstValue)
  | duplex
  | putStack (ofs : Nat)
  | addOp (dt : DataType)
  | addConstOp (c : ConstValue)
  | retOp
deriving DecidableEq

/-- The state of CodeGenInner from src/codegen/mod.rs. reg1/reg2 are
reg_state[0]/reg_state[1]; ops is the emission log of the backend. -/
structure CodeGenInner where
  args_size : Nat
  values : List CGValue
  free_slots : List Nat
  reg1 : Option (Nat × Bool)
  reg2 : Option (Nat × Bool)
  ops : List CPOp
  stack_ptr : Nat
  stack_size : Nat
deriving DecidableEq

namespace CodeGenInner

/-- CodeGenInner::new: one readonly I64 variable per argument, at stack
offsets 0, 8, 16, ... -/
def new (args : Nat) : CodeGenInner :=
  { args_size := args
    values := (List.range args).map (fun i => CGValue.Variable DataType.I64 (i * 8) true)
    free_slots := []
    reg1 := none
    reg2 := none
    ops := []
    stack_ptr := args * 8
    stack_size := args * 8 }

/-- CodeGen::new_i64_const: append a fresh Constant entry, returning its index. -/
def new_i64_const (s : CodeGenInner) (n : Int) : Nat × CodeGenInner :=
  (s.values.length, { s with values := s.values ++ [CGValue.Constant (ConstValue.I64 n)] })

/-- CodeGen::new_bool_const: append a fresh Constant entry, returning its index. -/
def new_bool_const (s : CodeGenInner) (b : Bool) : Nat × CodeGenInner :=
  (s.values.length, { s with values := s.values ++ [CGValue.Constant (ConstValue.Bool b)] })

/-- CodeGenInner::free_reg. The returned Bool is the source's return value
(true means the register already holds new_i dirty, so the caller can keep it).
Spilling a dirty second register, or a dirty constant/readonly value, is a
fatal fault (todo/assert in the source), embedded as none. -/
def free_reg (s : CodeGenInner) (reg : Nat) (new_i : Nat) : Option (Bool × CodeGenInner) :=
  match (if reg = 0 then s.reg1 else s.reg2) with
  | some (i, dirty) =>
    if dirty then
      match s.values.get? i with
      | some (CGValue.Variable _ stack_pos readonly) =>
        if readonly then none
        else if i ≠ new_i then
          if reg = 0 then some (false, { s with ops := s.ops ++ [CPOp.putStack stack_pos] })
          else none
        else some (true, s)
      | some (CGValue.Constant _) => none
      | some (CGValue.Free _) => some (false, s)
      | none => none
    else some (false, s)
  | none => some (false, s)

/-- The load tail of CodeGenInner::put_in_reg1: fetch the canonical storage of
v into register 1 and record it clean. -/
def load_reg1 (s : CodeGenInner) (v : Nat) : Option CodeGenInner :=
  match s.values.get? v with
  | some (CGValue.Variable _ stack_pos _) =>
    some { s with ops := s.ops ++ [CPOp.take1Stack stack_pos], reg1 := some (v, false) }
  | some (CGValue.Constant c) =>
    some { s with ops := s.ops ++ [CPOp.take1Const c], reg1 := some (v, false) }
  | some (CGValue.Free _) => none
  | none => none

/-- CodeGenInner::put_in_reg1. Moving a value from register 2 into register 1
is unimplemented in the source (todo), embedded as none. -/
def put_in_reg1 (s : CodeGenInner) (v : Nat) : Option CodeGenInner :=
  match free_reg s 0 v with
  | none => none
  | some (true, s1) => some s1
  | some (false, s1) =>
    match s1.reg2 with
    | some (i, _) => if i = v then none else load_reg1 s1 v
    | none => load_reg1 s1 v

/-- The load tail of CodeGenInner::put_in_reg2. -/
def load_reg2 (s : CodeGenInner) (v : Nat) : Option CodeGenInner :=
  match s.values.get? v with
  | some (CGValue.Variable _ stack_pos _) =>
    some { s with ops := s.ops ++ [CPOp.take2Stack stack_pos], reg2 := some (v, false) }
  | some (CGValue.Constant c) =>
    some { s with ops := s.ops ++ [CPOp.take2Const c], reg2 := some (v, false) }
  | some (CGValue.Free _) => none
  | none => none

/-- CodeGenInner::put_in_reg2. The result of free_reg is discarded, exactly as
in the source. When the value sits in register 1 clean it is duplicated
register-to-register; a dirty register 1 in that case is a fatal todo. -/
def put_in_reg2 (s : CodeGenInner) (v : Nat) : Option CodeGenInner :=
  match free_reg s 1 v with
  | none => none
  | some (_, s1) =>
    match s1.reg1 with
    | some (i, dirty) =>
      if i = v then
        if dirty then none
        else some { s1 with ops := s1.ops ++ [CPOp.duplex], reg2 := s1.reg1 }
      else load_reg2 s1 v
    | none => load_reg2 s1 v

/-- The second half of CodeGenInner::allocate_stack: the chosen slot must be
Free; it keeps its remembered stack offset or gets a fresh one carved off
stack_ptr, and becomes a mutable Variable. A slot that is not Free is a
fatal fault (unreachable in the source). -/
def allocate_at (s1 : CodeGenInner) (i : Nat) (dt : DataType) : Option (Nat × CodeGenInner) :=
  match s1.values.get? i with
  | some (CGValue.Free (some o)) =>
    some (i, { s1 with values := s1.values.set i (CGValue.Variable dt o false) })
  | some (CGValue.Free none) =>
    some (i, { s1 with stack_ptr := s1.stack_ptr + 8,
                       stack_size := max s1.stack_size (s1.stack_ptr + 8),
                       values := s1.values.set i (CGValue.Variable dt s1.stack_ptr false) })
  | _ => none

/-- CodeGenInner::allocate_stack: pop a free index (LIFO) if available, else
append a fresh entry, then give the slot its offset and mark it mutable. -/
def allocate_stack (s : CodeGenInner) (dt : DataType) : Option (Nat × CodeGenInner) :=
  match s.free_slots with
  | j :: rest => allocate_at { s with free_slots := rest } j dt
  | [] => allocate_at { s with values := s.values ++ [CGValue.Free none] } s.values.length dt

/-- The core of CodeGenInner::dirty_reg1, after the register-2 clearing: mark
register 1 dirty and, depending on the occupant: a readonly Variable gets a
fresh mutable slot the register is repointed to; a Constant is promoted in
place to a mutable Variable with a fresh offset. -/
def dirty_reg1_core (s0 : CodeGenInner) : Option (Option Nat × CodeGenInner) :=
  match s0.reg1 with
  | some (i, _) =>
    match s0.values.get? i with
    | some (CGValue.Variable _ _ readonly) =>
      if readonly then
        match allocate_stack { s0 with reg1 := some (i, true) } DataType.I64 with
        | some (slot, s2) => some (some slot, { s2 with reg1 := some (slot, true) })
        | none => none
      else some (some i, { s0 with reg1 := some (i, true) })
    | some (CGValue.Constant c) =>
      some (some i,
        { s0 with reg1 := some (i, true),
                  stack_ptr := s0.stack_ptr + 8,
                  stack_size := max s0.stack_size (s0.stack_ptr + 8),
                  values := s0.values.set i (CGValue.Variable c.get_type s0.stack_ptr false) })
    | _ => none
  | none => some (none, s0)

/-- CodeGenInner::dirty_reg1. The source first clears register 2 whenever it
is occupied (its alias test compares the occupant index with itself, so it
always succeeds), then runs the core on register 1. -/
def dirty_reg1 (s : CodeGenInner) : Option (Option Nat × CodeGenInner) :=
  match s.reg2 with
  | some _ => dirty_reg1_core { s with reg2 := none }
  | none => dirty_reg1_core s

/-- CodeGenInner::clone_value. For a Variable: if register 1 is occupied and
dirty, the source emits put_stack with the occupant INDEX as the offset
(generate_put_stack(*i)) and clears the dirty flag; if the occupant is v it is
repointed to the upcoming fresh index. If register 1 is empty, v is loaded;
the source then assigns through Option::unwrap on a copy of the register
state, which mutates a temporary and has no effect, so no repointing happens
in that branch. Constants are duplicated as new Constant entries. -/
def clone_value (s : CodeGenInner) (v : Nat) : Option (Nat × CodeGenInner) :=
  match s.values.get? v with
  | some (CGValue.Variable dt _ _) =>
    match s.reg1 with
    | some (i, dirty) =>
      -- after the spill branch the dirty flag is false: it is reset whenever
      -- it was set, and it was false otherwise
      if dirty then
        if i = v then
          allocate_stack { s with ops := s.ops ++ [CPOp.putStack i],
                                  reg1 := some (s.values.length, false) } dt
        else
          allocate_stack { s with ops := s.ops ++ [CPOp.putStack i],
                                  reg1 := some (i, false) } dt
      else
        if i = v then allocate_stack { s with reg1 := some (s.values.length, false) } dt
        else allocate_stack s dt
    | none =>
      match put_in_reg1 s v with
      | some s1 => allocate_stack s1 dt
      | none => none
  | some (CGValue.Constant c) =>
    some (s.values.length, { s with values := s.values ++ [CGValue.Constant c] })
  | _ => none

/-- CodeGenInner::free_value: readonly Variables are exempt; a mutable
Variable becomes Free retaining its offset and its index is pushed on the
free list; a Constant becomes Free with no offset; an already-Free entry is
left alone. -/
def free_value (s : CodeGenInner) (v : Nat) : Option CodeGenInner :=
  match s.values.get? v with
  | some (CGValue.Variable _ stack_pos readonly) =>
    if readonly then some s
    else some { s with values := s.values.set v (CGValue.Free (some stack_pos)),
                       free_slots := v :: s.free_slots }
  | some (CGValue.Constant _) =>
    some { s with values := s.values.set v (CGValue.Free none),
                  free_slots := v :: s.free_slots }
  | some (CGValue.Free _) => some s
  | none => none

/-- The middle of CodeGenInner::add: for a Variable right operand load it
into register 2 and emit the add primitive, for a Constant emit the
add-constant primitive, avoiding a register load. -/
def add_emit (s1 : CodeGenInner) (r : Nat) : CGValue → Option CodeGenInner
  | CGValue.Variable dt _ _ =>
    match put_in_reg2 s1 r with
    | none => none
    | some s2 => some { s2 with ops := s2.ops ++ [CPOp.addOp dt] }
  | CGValue.Constant c => some { s1 with ops := s1.ops ++ [CPOp.addConstOp c] }
  | CGValue.Free _ => none

/-- The tail of CodeGenInner::add: dirty register 1 and unwrap the returned
index (a missing register-1 occupant is a fatal fault, as the source
unwraps). -/
def add_dirty (s2 : CodeGenInner) : Option (Nat × CodeGenInner) :=
  match dirty_reg1 s2 with
  | some (some i, s3) => some (i, s3)
  | _ => none

/-- CodeGenInner::add: read the right operand's entry, load l into register 1,
emit the addition, then dirty register 1 and return the resulting index. -/
def add (s : CodeGenInner) (l r : Nat) : Option (Nat × CodeGenInner) :=
  match s.values.get? r with
  | none => none
  | some vr =>
    match put_in_reg1 s l with
    | none => none
    | some s1 =>
      match add_emit s1 r vr with
      | none => none
      | some s2 => add_dirty s2

/-- CodeGenInner::generate_return: load the value into register 1, store it
to the reserved return slot at offset 0 and emit the return primitive. -/
def generate_return (s : CodeGenInner) (v : Nat) : Option CodeGenInner :=
  match put_in_reg1 s v with
  | some s1 => some { s1 with ops := s1.ops ++ [CPOp.putStack 0, CPOp.retOp] }
  | none => none

end CodeGenInner

/-- The artifact handed to the Executable Runtime: the accumulated emission
log plus the final stack size (CopyPatchBackend::generate_code assembles
exactly the emitted operations into one linear buffer). -/
structure GeneratedCodeModel where
  stack_size : Nat
  ops : List CPOp
deriving DecidableEq

/-- CodeGenInner::generate_code: hand the accumulated byte stream and the
final stack size to the Executable Runtime. -/
def CodeGenInner.generate_code (s : CodeGenInner) : GeneratedCodeModel :=
  { stack_size := s.stack_size, ops := s.ops }

/-- Modelled from the spec: the machine state during execution of the
generated code — the private stack (indexed by 8-byte word, the stencil
offsets are byte offsets that are divided by 8 here) and the two scratch
registers. The stencil machine code itself is outside the embedded source. -/
structure MachineState where
  stack : Nat → Int
  reg1 : Int
  reg2 : Int

/-- Modelled from the spec: the integer a constant loads as. -/
def ConstValue.toInt : ConstValue → Int
  | .I64 n => n
  | .Bool b => if b then 1 else 0

/-- Modelled from the spec: semantics of one backend primitive, per the
Stencil Backend contract of the specification (load register 1/2 from stack
or constant, duplicate register 1 into register 2, store register 1 to the
stack, add register 2 or a constant into register 1, return). The return
primitive ends the straight-line program and is a no-op on the state. -/
def execOp (m : MachineState) : CPOp → MachineState
  | .take1Stack ofs => { m with reg1 := m.stack (ofs / 8) }
  | .take1Const c => { m with reg1 := c.toInt }
  | .take2Stack ofs => { m with reg2 := m.stack (ofs / 8) }
  | .take2Const c => { m with reg2 := c.toInt }
  | .duplex => { m with reg2 := m.reg1 }
  | .putStack ofs => { m with stack := fun j => if j = ofs / 8 then m.reg1 else m.stack j }
  | .addOp _ => { m with reg1 := m.reg1 + m.reg2 }
  | .addConstOp c => { m with reg1 := m.reg1 + c.toInt }
  | .retOp => m

/-- Modelled from the spec: GeneratedCode::call — write each argument as an
8-byte word sequentially into the private stack (fresh anonymous mappings
read as zero elsewhere), run the generated straight-line code, then read the
first 8-byte word back out as the result. -/
def callGenerated (g : GeneratedCodeModel) (args : List Int) : Int :=
  let init : MachineState := { stack := fun j => (args.get? j).getD 0, reg1 := 0, reg2 := 0 }
  (g.ops.foldl execOp init).stack 0

/-- The raw GeneratedCode record of the source: three region pointers and the
code length, modelled as integers. -/
structure GeneratedCodeRaw where
  stack : Int
  code : Int
  code_len : Nat
  ghcc_code : Int
deriving DecidableEq

/-- The sentinel value mmap returns on failure. -/
def MAP_FAILED : Int := -1

/-- The pointer a memory mapping yields: the mapped address on success, the
MAP_FAILED sentinel on failure. The mapping itself is an external libc call,
so its outcome is a parameter here. -/
def mmapOutcome (oracle : Option Int) : Int :=
  match oracle with
  | some a => a
  | none => MAP_FAILED

/-- GeneratedCode::new from the source: performs the three memory mappings
(code region, wrapper region, private stack), copies bytes, and returns the
record. The source never inspects the mmap return values: the constructor is
infallible and simply stores whatever pointers the mappings produced. -/
def GeneratedCode.new (code_mmap ghcc_mmap stack_mmap : Option Int)
    (code_len : Nat) : GeneratedCodeRaw :=
  { stack := mmapOutcome stack_mmap
    code := mmapOutcome code_mmap
    code_len := code_len
    ghcc_code := mmapOutcome ghcc_mmap }

/-- The mutating public operations of one generation session (CodeGen's
surface): constant constructors, add, clone, free and return. get_arg only
builds a handle and neither reads nor writes the session state, so it is not
a state transition. -/
inductive PubOp
  | constI64 (n : Int)
  | constBool (b : Bool)
  | addv (l r : Nat)
  | clonev (v : Nat)
  | freev (v : Nat)
  | retv (v : Nat)

/-- One public operation as a state transition (discarding returned indices). -/
def stepOp (s : CodeGenInner) : PubOp → Option CodeGenInner
  | .constI64 n => some (s.new_i64_const n).2
  | .constBool b => some (s.new_bool_const b).2
  | .addv l r => (s.add l r).map Prod.snd
  | .clonev v => (s.clone_value v).map Prod.snd
  | .freev v => (s.free_value v)
  | .retv v => s.generate_return v

/-- Run a list of public operations from a given state. -/
def runFrom (s : CodeGenInner) : List PubOp → Option CodeGenInner
  | [] => some s
  | op :: rest =>
    match stepOp s op with
    | some s1 => runFrom s1 rest
    | none => none

/-- All states reachable through the public operations of a fresh session. -/
def runOps (args : Nat) (l : List PubOp) : Option CodeGenInner :=
  runFrom (CodeGenInner.new args) l

/-- The user-facing typed handle (CGValueRef): a value-table index plus the
semantic type. The session back-reference is implicit (one session). -/
structure CGValueRef where
  i : Nat
  data_type : DataType
deriving DecidableEq

/-- CodeGen::get_arg from the source: wraps the raw argument number n in a
readonly I64 handle. It performs no bounds check against the declared
argument count and does not touch the session state at all. -/
def CodeGen.get_arg (s : CodeGenInner) (n : Nat) : CGValueRef × CodeGenInner :=
  ({ i := n, data_type := DataType.I64 }, s)

/-! Helper lemmas about the embedded operations. -/

theorem get?_some_lt {α : Type} {l : List α} {n : Nat} {a : α}
    (h : l.get? n = some a) : n < l.length :=
  (List.get?_eq_some.mp h).fst

namespace CodeGenInner

theorem free_reg_frame {s : CodeGenInner} {reg new_i : Nat} {b : Bool} {s' : CodeGenInner}
    (h : free_reg s reg new_i = some (b, s')) :
    s'.args_size = s.args_size ∧ s'.values = s.values ∧ s'.free_slots = s.free_slots ∧
    s'.reg1 = s.reg1 ∧ s'.reg2 = s.reg2 ∧ s'.stack_ptr = s.stack_ptr ∧
    s'.stack_size = s.stack_size := by
  unfold free_reg at h
  repeat' split at h
  all_goals (try exact Option.noConfusion h)
  all_goals injection h with h
  all_goals injection h with hb hs
  all_goals try subst hs
  all_goals try subst hb
  all_goals simp_all

theorem free_reg_true {s : CodeGenInner} {new_i : Nat} {s' : CodeGenInner}
    (h : free_reg s 0 new_i = some (true, s')) :
    s' = s ∧ s.reg1 = some (new_i, true) := by
  unfold free_reg at h
  repeat' split at h
  all_goals (try exact Option.noConfusion h)
  all_goals injection h with h
  all_goals injection h with hb hs
  all_goals try subst hs
  all_goals try subst hb
  all_goals simp_all

theorem load_reg1_spec {s : CodeGenInner} {v : Nat} {s' : CodeGenInner}
    (h : load_reg1 s v = some s') :
    s'.args_size = s.args_size ∧ s'.values = s.values ∧ s'.free_slots = s.free_slots ∧
    s'.reg1 = some (v, false) ∧ s'.reg2 = s.reg2 ∧ s'.stack_ptr = s.stack_ptr ∧
    s'.stack_size = s.stack_size := by
  unfold load_reg1 at h
  repeat' split at h
  all_goals (try exact Option.noConfusion h)
  all_goals injection h with hs
  all_goals try subst hs
  all_goals simp_all

theorem put_in_reg1_spec {s : CodeGenInner} {v : Nat} {s' : CodeGenInner}
    (h : put_in_reg1 s v = some s') :
    s'.args_size = s.args_size ∧ s'.values = s.values ∧ s'.free_slots = s.free_slots ∧
    (∃ d, s'.reg1 = some (v, d)) ∧ s'.reg2 = s.reg2 ∧ s'.stack_ptr = s.stack_ptr ∧
    s'.stack_size = s.stack_size := by
  unfold put_in_reg1 at h
  split at h
  · exact Option.noConfusion h
  case _ s1 heq =>
    obtain ⟨hs, hr⟩ := free_reg_true heq
    subst hs
    injection h with hs
    subst hs
    exact ⟨rfl, rfl, rfl, ⟨true, hr⟩, rfl, rfl, rfl⟩
  case _ s1 heq =>
    obtain ⟨ha, hv, hf, hr1, hr2, hp, hz⟩ := free_reg_frame heq
    have hload : load_reg1 s1 v = some s' := by
      split at h
      · split at h
        · exact Option.noConfusion h
        · exact h
      · exact h
    obtain ⟨ga, gv, gf, gr1, gr2, gp, gz⟩ := load_reg1_spec hload
    exact ⟨ga.trans ha, gv.trans hv, gf.trans hf, ⟨false, gr1⟩, gr2.trans hr2,
      gp.trans hp, gz.trans hz⟩

theorem load_reg2_spec {s : CodeGenInner} {v : Nat} {s' : CodeGenInner}
    (h : load_reg2 s v = some s') :
    s'.args_size = s.args_size ∧ s'.values = s.values ∧ s'.free_slots = s.free_slots ∧
    s'.reg1 = s.reg1 ∧ s'.reg2 = some (v, false) ∧ s'.stack_ptr = s.stack_ptr ∧
    s'.stack_size = s.stack_size := by
  unfold load_reg2 at h
  repeat' split at h
  all_goals (try exact Option.noConfusion h)
  all_goals injection h with hs
  all_goals try subst hs
  all_goals simp_all

theorem put_in_reg2_spec {s : CodeGenInner} {v : Nat} {s' : CodeGenInner}
    (h : put_in_reg2 s v = some s') :
    s'.args_size = s.args_size ∧ s'.values = s.values ∧ s'.free_slots = s.free_slots ∧
    s'.reg1 = s.reg1 ∧ s'.stack_ptr = s.stack_ptr ∧ s'.stack_size = s.stack_size := by
  unfold put_in_reg2 at h
  split at h
  · exact Option.noConfusion h
  case _ p s1 heq =>
    obtain ⟨ha, hv, hf, hr1, hr2, hp, hz⟩ := free_reg_frame heq
    have hrest :
        s'.args_size = s1.args_size ∧ s'.values = s1.values ∧ s'.free_slots = s1.free_slots ∧
        s'.reg1 = s1.reg1 ∧ s'.stack_ptr = s1.stack_ptr ∧ s'.stack_size = s1.stack_size := by
      split at h
      · split at h
        · split at h
          · exact Option.noConfusion h
          · injection h with hs
            subst hs
            exact ⟨rfl, rfl, rfl, rfl, rfl, rfl⟩
        · obtain ⟨ga, gv, gf, gr1, _, gp, gz⟩ := load_reg2_spec h
          exact ⟨ga, gv, gf, gr1, gp, gz⟩
      · obtain ⟨ga, gv, gf, gr1, _, gp, gz⟩ := load_reg2_spec h
        exact ⟨ga, gv, gf, gr1, gp, gz⟩
    obtain ⟨ga, gv, gf, gr1, gp, gz⟩ := hrest
    exact ⟨ga.trans ha, gv.trans hv, gf.trans hf, gr1.trans hr1, gp.trans hp, gz.trans hz⟩

theorem allocate_at_frame {s : CodeGenInner} {j : Nat} {dt : DataType} {i : Nat}
    {s' : CodeGenInner} (h : allocate_at s j dt = some (i, s')) :
    i = j ∧ s'.args_size = s.args_size ∧ s'.reg1 = s.reg1 ∧ s'.reg2 = s.reg2 ∧
    s'.ops = s.ops ∧ s'.free_slots = s.free_slots := by
  unfold allocate_at at h
  repeat' split at h
  all_goals (try exact Option.noConfusion h)
  all_goals injection h with h
  all_goals injection h with hb hs
  all_goals try subst hs
  all_goals try subst hb
  all_goals simp_all

theorem allocate_stack_frame {s : CodeGenInner} {dt : DataType} {i : Nat} {s' : CodeGenInner}
    (h : allocate_stack s dt = some (i, s')) :
    s'.args_size = s.args_size ∧ s'.reg1 = s.reg1 ∧ s'.reg2 = s.reg2 ∧ s'.ops = s.ops := by
  unfold allocate_stack at h
  split at h
  · obtain ⟨_, ha, hr1, hr2, ho, _⟩ := allocate_at_frame h
    exact ⟨ha, hr1, hr2, ho⟩
  · obtain ⟨_, ha, hr1, hr2, ho, _⟩ := allocate_at_frame h
    exact ⟨ha, hr1, hr2, ho⟩

end CodeGenInner

namespace CodeGenInner

theorem allocate_at_values {s : CodeGenInner} {j : Nat} {dt : DataType} {i : Nat}
    {s' : CodeGenInner} (h : allocate_at s j dt = some (i, s')) :
    ∃ o sp, s.values.get? j = some (CGValue.Free o) ∧
      s'.values = s.values.set j (CGValue.Variable dt sp false) ∧
      s'.free_slots = s.free_slots ∧ i = j := by
  unfold allocate_at at h
  split at h
  case h_1 o heq =>
    injection h with h
    injection h with hb hs
    subst hs
    subst hb
    exact ⟨some o, o, heq, rfl, rfl, rfl⟩
  case h_2 heq =>
    injection h with h
    injection h with hb hs
    subst hs
    subst hb
    exact ⟨none, s.stack_ptr, heq, rfl, rfl, rfl⟩
  case h_3 => exact Option.noConfusion h

theorem allocate_stack_spec {s : CodeGenInner} {dt : DataType} {i : Nat} {s' : CodeGenInner}
    (h : allocate_stack s dt = some (i, s')) :
    ∃ sp, (∀ j w, s.values.get? j = some w → (∀ o, w ≠ CGValue.Free o) →
        i ≠ j ∧ s'.values.get? j = some w) ∧
      s'.values.get? i = some (CGValue.Variable dt sp false) := by
  unfold allocate_stack at h
  split at h
  case h_1 j0 rest heq =>
    obtain ⟨o, sp, hfree, hval, _, hij⟩ := allocate_at_values h
    subst hij
    have hlt : i < s.values.length := get?_some_lt hfree
    refine ⟨sp, ?_, ?_⟩
    · intro j w hj hnf
      have hne : i ≠ j := by
        intro he
        subst he
        rw [hj] at hfree
        exact hnf o (Option.some.inj hfree)
      exact ⟨hne, by rw [hval, List.get?_set_ne _ _ hne, hj]⟩
    · rw [hval, List.get?_set_eq_of_lt _ hlt]
  case h_2 heq =>
    obtain ⟨o, sp, hfree, hval, _, hij⟩ := allocate_at_values h
    dsimp only at hfree hval
    subst hij
    refine ⟨sp, ?_, ?_⟩
    · intro j w hj hnf
      have hjlt : j < s.values.length := get?_some_lt hj
      have hne : s.values.length ≠ j := by omega
      refine ⟨hne, ?_⟩
      rw [hval, List.get?_set_ne _ _ hne, List.get?_append hjlt]
      exact hj
    · have hlt : s.values.length < (s.values ++ [CGValue.Free none]).length := by
        simp
      rw [hval, List.get?_set_eq_of_lt _ hlt]

theorem dirty_reg1_core_reg2_none {s : CodeGenInner} {r : Option Nat} {s' : CodeGenInner}
    (h : dirty_reg1_core s = some (r, s')) (h2 : s.reg2 = none) : s'.reg2 = none := by
  unfold dirty_reg1_core at h
  split at h
  case h_1 i d heq =>
    split at h
    case h_1 =>
      split at h
      · split at h
        case isTrue.h_1 slot s2 halloc =>
          injection h with h
          injection h with hb hs
          subst hs
          obtain ⟨_, _, hr2, _⟩ := allocate_stack_frame halloc
          simpa [hr2] using h2
        case isTrue.h_2 => exact Option.noConfusion h
      · injection h with h
        injection h with hb hs
        subst hs
        exact h2
    case h_2 =>
      injection h with h
      injection h with hb hs
      subst hs
      exact h2
    case h_3 => exact Option.noConfusion h
  case h_2 =>
    injection h with h
    injection h with hb hs
    subst hs
    exact h2

theorem dirty_reg1_reg2_none {s : CodeGenInner} {r : Option Nat} {s' : CodeGenInner}
    (h : dirty_reg1 s = some (r, s')) : s'.reg2 = none := by
  unfold dirty_reg1 at h
  split at h
  · exact dirty_reg1_core_reg2_none h rfl
  case h_2 heq => exact dirty_reg1_core_reg2_none h heq

end CodeGenInner

namespace CodeGenInner

theorem dirty_reg1_core_cases {t : CodeGenInner} {l : Nat} {d : Bool} {io : Option Nat}
    {s3 : CodeGenInner} (hreg : t.reg1 = some (l, d))
    (h : dirty_reg1_core t = some (io, s3)) :
    (∀ dt sp, t.values.get? l = some (CGValue.Variable dt sp false) →
        io = some l ∧ s3.values = t.values) ∧
    (∀ dt sp, t.values.get? l = some (CGValue.Variable dt sp true) →
        ∃ res2, io = some res2 ∧ res2 ≠ l ∧
          s3.values.get? l = some (CGValue.Variable dt sp true) ∧
          ∃ sp2, s3.values.get? res2 = some (CGValue.Variable DataType.I64 sp2 false)) ∧
    (∀ c, t.values.get? l = some (CGValue.Constant c) →
        io = some l ∧ ∃ sp2, s3.values.get? l = some (CGValue.Variable c.get_type sp2 false)) := by
  unfold dirty_reg1_core at h
  split at h
  case h_1 i d0 heq =>
    rw [hreg] at heq
    injection heq with heq
    injection heq with hil hdd
    subst hil
    split at h
    case h_1 dt0 sp0 ro0 heq2 =>
      split at h
      case isTrue hro =>
        subst hro
        split at h
        case h_1 slot s2a halloc =>
          injection h with h
          injection h with hio hs3
          subst hio
          subst hs3
          obtain ⟨sp2, hpres, hentry⟩ := allocate_stack_spec halloc
          refine ⟨?_, ?_, ?_⟩
          · intro dt sp hl
            rw [heq2] at hl
            simp at hl
          · intro dt sp hl
            rw [heq2] at hl
            injection hl with hl
            injection hl with h1 h2 h3
            subst h1
            subst h2
            have hg : ({ t with reg1 := some (l, true) } : CodeGenInner).values.get? l =
                some (CGValue.Variable dt0 sp0 true) := heq2
            obtain ⟨hne, hkeep⟩ := hpres l (CGValue.Variable dt0 sp0 true) hg (by intro o; simp)
            exact ⟨slot, rfl, hne, hkeep, sp2, hentry⟩
          · intro c hl
            rw [heq2] at hl
            simp at hl
        case h_2 => exact Option.noConfusion h
      case isFalse hro =>
        have hro0 : ro0 = false := by
          cases ro0
          · rfl
          · exact absurd rfl hro
        subst hro0
        injection h with h
        injection h with hio hs3
        subst hio
        subst hs3
        refine ⟨?_, ?_, ?_⟩
        · intro dt sp hl
          exact ⟨rfl, rfl⟩
        · intro dt sp hl
          rw [heq2] at hl
          simp at hl
        · intro c hl
          rw [heq2] at hl
          simp at hl
    case h_2 c0 heq2 =>
      injection h with h
      injection h with hio hs3
      subst hio
      subst hs3
      have hlt : l < t.values.length := get?_some_lt heq2
      refine ⟨?_, ?_, ?_⟩
      · intro dt sp hl
        rw [heq2] at hl
        simp at hl
      · intro dt sp hl
        rw [heq2] at hl
        simp at hl
      · intro c hl
        rw [heq2] at hl
        injection hl with hl
        injection hl with hc
        subst hc
        refine ⟨rfl, t.stack_ptr, ?_⟩
        rw [List.get?_set_eq_of_lt _ hlt]
    case h_3 => exact Option.noConfusion h
  case h_2 heq =>
    rw [hreg] at heq
    exact Option.noConfusion heq

theorem dirty_reg1_cases {s2 : CodeGenInner} {l : Nat} {d : Bool} {io : Option Nat}
    {s3 : CodeGenInner} (hreg : s2.reg1 = some (l, d))
    (h : dirty_reg1 s2 = some (io, s3)) :
    (∀ dt sp, s2.values.get? l = some (CGValue.Variable dt sp false) →
        io = some l ∧ s3.values = s2.values) ∧
    (∀ dt sp, s2.values.get? l = some (CGValue.Variable dt sp true) →
        ∃ res2, io = some res2 ∧ res2 ≠ l ∧
          s3.values.get? l = some (CGValue.Variable dt sp true) ∧
          ∃ sp2, s3.values.get? res2 = some (CGValue.Variable DataType.I64 sp2 false)) ∧
    (∀ c, s2.values.get? l = some (CGValue.Constant c) →
        io = some l ∧ ∃ sp2, s3.values.get? l = some (CGValue.Variable c.get_type sp2 false)) := by
  unfold dirty_reg1 at h
  split at h
  · exact dirty_reg1_core_cases (t := { s2 with reg2 := none }) hreg h
  · exact dirty_reg1_core_cases hreg h

theorem add_emit_spec {s1 : CodeGenInner} {r : Nat} {vr : CGValue} {s2 : CodeGenInner}
    (h : add_emit s1 r vr = some s2) :
    s2.values = s1.values ∧ s2.reg1 = s1.reg1 ∧ s2.free_slots = s1.free_slots ∧
    s2.stack_ptr = s1.stack_ptr ∧ s2.stack_size = s1.stack_size := by
  unfold add_emit at h
  split at h
  · split at h
    · exact Option.noConfusion h
    case h_2 sx heq =>
      obtain ⟨_, hv, hf, hr1, hp, hz⟩ := put_in_reg2_spec heq
      injection h with hs
      subst hs
      exact ⟨hv, hr1, hf, hp, hz⟩
  · injection h with hs
    subst hs
    exact ⟨rfl, rfl, rfl, rfl, rfl⟩
  · exact Option.noConfusion h

theorem add_cases {s : CodeGenInner} {l r res : Nat} {s' : CodeGenInner}
    (h : add s l r = some (res, s')) :
    (∀ dt sp, s.values.get? l = some (CGValue.Variable dt sp false) → res = l) ∧
    (∀ dt sp, s.values.get? l = some (CGValue.Variable dt sp true) →
        res ≠ l ∧ s'.values.get? l = some (CGValue.Variable dt sp true) ∧
        ∃ sp2, s'.values.get? res = some (CGValue.Variable DataType.I64 sp2 false)) ∧
    (∀ c, s.values.get? l = some (CGValue.Constant c) →
        res = l ∧ ∃ sp2, s'.values.get? l = some (CGValue.Variable c.get_type sp2 false)) := by
  unfold add at h
  split at h
  · exact Option.noConfusion h
  case h_2 vr heqr =>
    split at h
    · exact Option.noConfusion h
    case h_2 s1 heq1 =>
      obtain ⟨_, hv1, _, ⟨d1, hr1⟩, _, _, _⟩ := put_in_reg1_spec heq1
      split at h
      · exact Option.noConfusion h
      case h_2 s2 heq2 =>
        obtain ⟨hv2, hr2, _, _, _⟩ := add_emit_spec heq2
        unfold add_dirty at h
        split at h
        case h_1 i s3 heq3 =>
          injection h with h
          injection h with hi hs
          subst hs
          have hreg : s2.reg1 = some (l, d1) := by rw [hr2, hr1]
          have hv21 : s2.values = s.values := by rw [hv2, hv1]
          obtain ⟨hmut, hro, hconst⟩ := dirty_reg1_cases hreg heq3
          refine ⟨?_, ?_, ?_⟩
          · intro dt sp hl
            have h2 := hmut dt sp (by rw [hv21]; exact hl)
            have hil : i = l := Option.some.inj h2.1
            rw [← hi]
            exact hil
          · intro dt sp hl
            obtain ⟨res2, hio, hne, hkeep, sp2, hfresh⟩ := hro dt sp (by rw [hv21]; exact hl)
            have hir : i = res2 := Option.some.inj hio
            subst hir
            rw [← hi]
            exact ⟨hne, hkeep, sp2, hfresh⟩
          · intro c hl
            obtain ⟨hio, sp2, hkeep⟩ := hconst c (by rw [hv21]; exact hl)
            have hil : i = l := Option.some.inj hio
            refine ⟨?_, sp2, hkeep⟩
            rw [← hi]
            exact hil
        case h_2 hother => exact Option.noConfusion h

end CodeGenInner

/-- Register 2 is never tracked dirty. -/
def reg2CleanB (s : CodeGenInner) : Bool :=
  match s.reg2 with
  | some (_, d2) => !d2
  | none => true

/-- No two registers are tracked as holding the same value-table index while
one of them is dirty. -/
def noAliasDirtyB (s : CodeGenInner) : Bool :=
  match s.reg1, s.reg2 with
  | some (i, d1), some (j, d2) => i != j || (!d1 && !d2)
  | _, _ => true

/-- The register-tracking invariant maintained by the public operations. -/
def regInvB (s : CodeGenInner) : Bool := reg2CleanB s && noAliasDirtyB s

namespace CodeGenInner

theorem regInvB_congr {s t : CodeGenInner} (h1 : s.reg1 = t.reg1) (h2 : s.reg2 = t.reg2) :
    regInvB s = regInvB t := by
  unfold regInvB reg2CleanB noAliasDirtyB
  rw [h1, h2]

theorem regInvB_of_reg2_none {s : CodeGenInner} (h : s.reg2 = none) : regInvB s = true := by
  unfold regInvB reg2CleanB noAliasDirtyB
  cases h1 : s.reg1 <;> simp [h, h1]

theorem regInvB_reg2clean {s : CodeGenInner} (h : regInvB s = true) : reg2CleanB s = true := by
  unfold regInvB at h
  simp at h
  exact h.1

theorem regInvB_clean1 {s : CodeGenInner} {v : Nat} (h1 : s.reg1 = some (v, false))
    (h2 : reg2CleanB s = true) : regInvB s = true := by
  unfold regInvB noAliasDirtyB
  unfold reg2CleanB at h2 ⊢
  rw [h1]
  cases hr2 : s.reg2 with
  | none => simp
  | some p =>
    obtain ⟨j, d2⟩ := p
    rw [hr2] at h2
    simp at h2
    subst h2
    simp

theorem put_in_reg1_inv {s : CodeGenInner} {v : Nat} {s' : CodeGenInner}
    (hinv : regInvB s = true) (h : put_in_reg1 s v = some s') : regInvB s' = true := by
  unfold put_in_reg1 at h
  split at h
  · exact Option.noConfusion h
  case h_2 s1 heq =>
    obtain ⟨hs, _⟩ := free_reg_true heq
    subst hs
    injection h with hs
    subst hs
    exact hinv
  case h_3 s1 heq =>
    obtain ⟨_, _, _, hr1, hr2, _, _⟩ := free_reg_frame heq
    have hload : load_reg1 s1 v = some s' := by
      split at h
      · split at h
        · exact Option.noConfusion h
        · exact h
      · exact h
    obtain ⟨_, _, _, gr1, gr2, _, _⟩ := load_reg1_spec hload
    have hclean : reg2CleanB s' = true := by
      have e : reg2CleanB s' = reg2CleanB s := by
        unfold reg2CleanB
        rw [gr2, hr2]
      rw [e]
      exact regInvB_reg2clean hinv
    exact regInvB_clean1 gr1 hclean

theorem free_value_frame {s : CodeGenInner} {v : Nat} {s' : CodeGenInner}
    (h : free_value s v = some s') : s'.reg1 = s.reg1 ∧ s'.reg2 = s.reg2 := by
  unfold free_value at h
  repeat' split at h
  all_goals (try exact Option.noConfusion h)
  all_goals injection h with hs
  all_goals subst hs
  all_goals exact ⟨rfl, rfl⟩

theorem add_reg2_none {s : CodeGenInner} {l r res : Nat} {s' : CodeGenInner}
    (h : add s l r = some (res, s')) : s'.reg2 = none := by
  unfold add at h
  split at h
  · exact Option.noConfusion h
  · split at h
    · exact Option.noConfusion h
    · split at h
      · exact Option.noConfusion h
      · unfold add_dirty at h
        split at h
        case h_1 i s3 heq3 =>
          injection h with h
          injection h with hi hs
          subst hs
          exact dirty_reg1_reg2_none heq3
        case h_2 => exact Option.noConfusion h

theorem clone_value_inv {s : CodeGenInner} {v res : Nat} {s' : CodeGenInner}
    (hinv : regInvB s = true) (h : clone_value s v = some (res, s')) : regInvB s' = true := by
  unfold clone_value at h
  split at h
  case h_1 dt spx rox heq =>
    split at h
    case h_1 i dirty hreg =>
      have hclean1 : ∀ j : Nat, ∀ s2 sm : CodeGenInner, ∀ x : Nat,
          allocate_stack sm dt = some (j, s2) → sm.reg1 = some (x, false) →
          sm.reg2 = s.reg2 → regInvB s2 = true := by
        intro j s2 sm x halloc hm1 hm2
        obtain ⟨_, ar1, ar2, _⟩ := allocate_stack_frame halloc
        have hclean : reg2CleanB s2 = true := by
          have e : reg2CleanB s2 = reg2CleanB s := by
            unfold reg2CleanB
            rw [ar2, hm2]
          rw [e]
          exact regInvB_reg2clean hinv
        exact regInvB_clean1 (by rw [ar1, hm1]) hclean
      split at h
      · split at h
        · exact hclean1 _ _ _ _ h rfl rfl
        · exact hclean1 _ _ _ _ h rfl rfl
      · split at h
        · exact hclean1 _ _ _ _ h rfl rfl
        case isFalse hdirty hne =>
          obtain ⟨_, ar1, ar2, _⟩ := allocate_stack_frame h
          have e : regInvB s' = regInvB s := regInvB_congr ar1 ar2
          rw [e]
          exact hinv
    case h_2 hreg =>
      split at h
      case h_1 s1 hput =>
        have hinv1 : regInvB s1 = true := put_in_reg1_inv hinv hput
        obtain ⟨_, ar1, ar2, _⟩ := allocate_stack_frame h
        have e : regInvB s' = regInvB s1 := regInvB_congr ar1 ar2
        rw [e]
        exact hinv1
      case h_2 => exact Option.noConfusion h
  case h_2 c heq =>
    injection h with h
    injection h with hb hs
    subst hs
    have e : regInvB { s with values := s.values ++ [CGValue.Constant c] } = regInvB s :=
      regInvB_congr rfl rfl
    rw [e]
    exact hinv
  case h_3 => exact Option.noConfusion h

end CodeGenInner

namespace CodeGenInner

theorem generate_return_inv {s : CodeGenInner} {v : Nat} {s' : CodeGenInner}
    (hinv : regInvB s = true) (h : generate_return s v = some s') : regInvB s' = true := by
  unfold generate_return at h
  split at h
  case h_1 s1 hput =>
    injection h with hs
    subst hs
    have e : regInvB { s1 with ops := s1.ops ++ [CPOp.putStack 0, CPOp.retOp] } = regInvB s1 :=
      regInvB_congr rfl rfl
    rw [e]
    exact put_in_reg1_inv hinv hput
  case h_2 => exact Option.noConfusion h

end CodeGenInner

theorem stepOp_inv {s : CodeGenInner} {op : PubOp} {s' : CodeGenInner}
    (hinv : regInvB s = true) (h : stepOp s op = some s') : regInvB s' = true := by
  cases op with
  | constI64 n =>
    simp only [stepOp] at h
    injection h with hs
    subst hs
    have e : regInvB (s.new_i64_const n).2 = regInvB s := CodeGenInner.regInvB_congr rfl rfl
    rw [e]
    exact hinv
  | constBool b =>
    simp only [stepOp] at h
    injection h with hs
    subst hs
    have e : regInvB (s.new_bool_const b).2 = regInvB s := CodeGenInner.regInvB_congr rfl rfl
    rw [e]
    exact hinv
  | addv l r =>
    simp only [stepOp] at h
    cases hadd : s.add l r with
    | none => rw [hadd] at h; exact Option.noConfusion h
    | some p =>
      rw [hadd] at h
      injection h with hs
      subst hs
      have h2 : s.add l r = some (p.1, p.2) := by rw [hadd]
      exact CodeGenInner.regInvB_of_reg2_none (CodeGenInner.add_reg2_none h2)
  | clonev v =>
    simp only [stepOp] at h
    cases hcl : s.clone_value v with
    | none => rw [hcl] at h; exact Option.noConfusion h
    | some p =>
      rw [hcl] at h
      injection h with hs
      subst hs
      exact CodeGenInner.clone_value_inv hinv (by rw [← hcl])
  | freev v =>
    simp only [stepOp] at h
    obtain ⟨hr1, hr2⟩ := CodeGenInner.free_value_frame h
    have e : regInvB s' = regInvB s := CodeGenInner.regInvB_congr hr1 hr2
    rw [e]
    exact hinv
  | retv v =>
    simp only [stepOp] at h
    exact CodeGenInner.generate_return_inv hinv h

theorem runFrom_inv {s : CodeGenInner} {l : List PubOp} {s' : CodeGenInner}
    (hinv : regInvB s = true) (h : runFrom s l = some s') : regInvB s' = true := by
  induction l generalizing s with
  | nil =>
    unfold runFrom at h
    injection h with hs
    subst hs
    exact hinv
  | cons op rest ih =>
    unfold runFrom at h
    split at h
    case h_1 s1 hstep => exact ih (stepOp_inv hinv hstep) h
    case h_2 => exact Option.noConfusion h

theorem regInvB_new (args : Nat) : regInvB (CodeGenInner.new args) = true := rfl

theorem runOps_inv {args : Nat} {l : List PubOp} {s : CodeGenInner}
    (h : runOps args l = some s) : regInvB s = true := by
  unfold runOps at h
  exact runFrom_inv (regInvB_new args) h

/-! Concrete sessions and states used by the claim theorems. -/

/-- The round-trip session: one argument, one I64 constant b, a single add of
the argument (index 0) and the constant, and a return of the result; the
accumulated emission log and final stack size are handed to the runtime. -/
def c1Session (b : Int) : Option GeneratedCodeModel :=
  let s0 := CodeGenInner.new 1
  let p := s0.new_i64_const b
  match p.2.add 0 p.1 with
  | none => none
  | some (res, s2) =>
    match s2.generate_return res with
    | some s3 => some s3.generate_code
    | none => none

/-- Invoke the round-trip session's generated code with argument a. -/
def c1Result (a b : Int) : Option Int :=
  (c1Session b).map (fun g => callGenerated g [a])

/-- A session with two constants 5 and 3 (indices 0 and 1). -/
def sC2 : CodeGenInner := (((CodeGenInner.new 0).new_i64_const 5).2.new_i64_const 3).2

/-- A state whose index 0 is a mutable Variable and index 1 a constant. -/
def sW2a : CodeGenInner :=
  ⟨0, [CGValue.Variable DataType.I64 0 false, CGValue.Constant (ConstValue.I64 3)],
    [], none, none, [], 8, 8⟩

/-- The state after adding constant 1 to the mutable variable 0 of sW2a. -/
def sW2a' : CodeGenInner := ((sW2a.add 0 1).map Prod.snd).getD (CodeGenInner.new 0)

/-- A one-argument session with the constant 3 appended (index 1). -/
def sW6 : CodeGenInner := ((CodeGenInner.new 1).new_i64_const 3).2

/-- The state after adding the constant to the readonly argument of sW6. -/
def sW6' : CodeGenInner := ((sW6.add 0 1).map Prod.snd).getD (CodeGenInner.new 0)

/-- The state after adding constant 3 to constant 5 in sC2. -/
def sW2c' : CodeGenInner := ((sC2.add 0 1).map Prod.snd).getD (CodeGenInner.new 0)

/-- C1: For every pair of 64-bit integers (a, b), a generation session with one
argument, a constant b, a single add of the argument and the constant, and a
return, when the produced code is invoked via call with argument a, returns
a + b. The backend primitive semantics and the call marshalling are modelled
from the specification; the emitted operation sequence comes from the embedded
source. -/
theorem C1_round_trip_add (a b : Int) : c1Result a b = some (a + b) := by
  rfl

/-- C2 counterexample: in a session where index 0 is the Constant 5 and index
1 the Constant 3, add(0, 1) returns index 0 itself — not a different, freshly
promoted index as the claim states for a Constant left operand. -/
theorem C2_counterexample :
    sC2.values.get? 0 = some (CGValue.Constant (ConstValue.I64 5)) ∧
    (sC2.add 0 1).map Prod.fst = some 0 := by
  exact ⟨rfl, rfl⟩

/-- C2 (amended): add(l, r) returns the same index l when l is a mutable
Variable, and also when l is a Constant — the Constant is promoted in place
to a mutable Variable with a freshly assigned stack slot. Only when l is a
readonly Variable (an argument) does it return a distinct, freshly promoted
mutable index. -/
theorem C2_add_result_index {s : CodeGenInner} {l r res : Nat} {s' : CodeGenInner}
    (h : s.add l r = some (res, s')) :
    (∀ dt sp, s.values.get? l = some (CGValue.Variable dt sp false) → res = l) ∧
    (∀ dt sp, s.values.get? l = some (CGValue.Variable dt sp true) →
        res ≠ l ∧ ∃ sp2, s'.values.get? res = some (CGValue.Variable DataType.I64 sp2 false)) ∧
    (∀ c, s.values.get? l = some (CGValue.Constant c) →
        res = l ∧ ∃ sp2, s'.values.get? l = some (CGValue.Variable c.get_type sp2 false)) := by
  obtain ⟨h1, h2, h3⟩ := CodeGenInner.add_cases h
  refine ⟨h1, ?_, h3⟩
  intro dt sp hl
  obtain ⟨hne, _, sp2, hfresh⟩ := h2 dt sp hl
  exact ⟨hne, sp2, hfresh⟩

/-- C2 witness: the three branches of the amended claim at concrete inputs:
a mutable variable keeps index 0, the readonly argument is repointed to the
fresh index 2, the constant keeps index 0. -/
theorem C2_add_result_index_witness :
    (sW2a.values.get? 0 = some (CGValue.Variable DataType.I64 0 false) ∧ (0 : Nat) = 0) ∧
    (sW6.values.get? 0 = some (CGValue.Variable DataType.I64 0 true) ∧ (2 : Nat) ≠ 0) ∧
    (sC2.values.get? 0 = some (CGValue.Constant (ConstValue.I64 5)) ∧ (0 : Nat) = 0) := by
  refine ⟨⟨by rfl, ?_⟩, ⟨by rfl, ?_⟩, ⟨by rfl, ?_⟩⟩
  · exact (C2_add_result_index (by rfl : sW2a.add 0 1 = some (0, sW2a'))).1
      DataType.I64 0 (by rfl)
  · exact ((C2_add_result_index (by rfl : sW6.add 0 1 = some (2, sW6'))).2.1
      DataType.I64 0 (by rfl)).1
  · exact ((C2_add_result_index (by rfl : sC2.add 0 1 = some (0, sW2c'))).2.2
      (ConstValue.I64 5) (by rfl)).1

/-- C3: dirtying register 1 while register 2 tracks the same index clears
register 2's tracked occupant; and in every state reachable through the
public operations no two registers are tracked as holding the same index
with one of them dirty. -/
theorem C3_register_alias_invalidation :
    (∀ (s : CodeGenInner) (i : Nat) (d1 d2 : Bool) (res : Option Nat) (s' : CodeGenInner),
        s.reg1 = some (i, d1) → s.reg2 = some (i, d2) →
        CodeGenInner.dirty_reg1 s = some (res, s') → s'.reg2 = none) ∧
    (∀ (args : Nat) (l : List PubOp) (s : CodeGenInner),
        runOps args l = some s → noAliasDirtyB s = true) := by
  constructor
  · intro s i d1 d2 res s' h1 h2 h3
    exact CodeGenInner.dirty_reg1_reg2_none h3
  · intro args l s h
    have hinv := runOps_inv h
    unfold regInvB at hinv
    simp at hinv
    exact hinv.2

/-- A state with both registers tracking index 0, register 2 clean. -/
def sW3 : CodeGenInner :=
  ⟨0, [CGValue.Constant (ConstValue.I64 7)], [], some (0, false), some (0, false), [], 0, 0⟩

/-- The state after dirtying register 1 of sW3. -/
def sW3' : CodeGenInner := ((CodeGenInner.dirty_reg1 sW3).map Prod.snd).getD (CodeGenInner.new 0)

/-- The state reached by a one-argument session after pushing constant 5 and
adding it to the argument. -/
def sW3r : CodeGenInner := (runOps 1 [PubOp.constI64 5, PubOp.addv 0 1]).getD (CodeGenInner.new 0)

/-- C3 witness: both parts applied at concrete inputs. -/
theorem C3_register_alias_invalidation_witness :
    (sW3.reg1 = some (0, false) ∧ sW3.reg2 = some (0, false) ∧ sW3'.reg2 = none) ∧
    (runOps 1 [PubOp.constI64 5, PubOp.addv 0 1] = some sW3r ∧ noAliasDirtyB sW3r = true) := by
  refine ⟨⟨rfl, rfl, ?_⟩, ⟨rfl, ?_⟩⟩
  · exact C3_register_alias_invalidation.1 sW3 0 false false (some 0) sW3' rfl rfl rfl
  · exact C3_register_alias_invalidation.2 1 [PubOp.constI64 5, PubOp.addv 0 1] sW3r rfl

/-- A state whose register 1 cleanly holds the readonly argument 0. -/
def sW4 : CodeGenInner :=
  ⟨1, [CGValue.Variable DataType.I64 0 true], [], some (0, false), none, [], 8, 8⟩

/-- C4 counterexample: index 0 is tracked as resident in register 1 (clean),
yet put_in_reg1(0) emits a redundant load instead of doing no work. -/
theorem C4_counterexample :
    sW4.reg1 = some (0, false) ∧
    (sW4.put_in_reg1 0).map (fun t => t.ops) ≠ some sW4.ops := by
  exact ⟨rfl, by decide⟩

/-- C4 (amended): put_in_reg1(v) with v already tracked in register 1 does no
work only when the register is marked dirty (and v is a mutable Variable, the
only legal dirty occupant): then nothing is emitted and the state is
unchanged. When the register is clean, the tracking state is left unchanged
but a redundant load of v's canonical storage — its stack slot for a
Variable, its literal for a Constant — is re-emitted (provided v is not also
tracked in register 2, which would be a fatal unimplemented path). -/
theorem C4_put_in_reg1_resident (s : CodeGenInner) (v : Nat) :
    (∀ dt sp, s.reg1 = some (v, true) →
        s.values.get? v = some (CGValue.Variable dt sp false) →
        s.put_in_reg1 v = some s) ∧
    (∀ dt sp ro, s.reg1 = some (v, false) → (∀ d, s.reg2 ≠ some (v, d)) →
        s.values.get? v = some (CGValue.Variable dt sp ro) →
        s.put_in_reg1 v = some { s with ops := s.ops ++ [CPOp.take1Stack sp] }) ∧
    (∀ c, s.reg1 = some (v, false) → (∀ d, s.reg2 ≠ some (v, d)) →
        s.values.get? v = some (CGValue.Constant c) →
        s.put_in_reg1 v = some { s with ops := s.ops ++ [CPOp.take1Const c] }) := by
  refine ⟨?_, ?_, ?_⟩
  · intro dt sp h1 hv
    rw [List.get?_eq_getElem?] at hv
    simp [CodeGenInner.put_in_reg1, CodeGenInner.free_reg, h1, hv]
  · intro dt sp ro h1 h2 hv
    rw [List.get?_eq_getElem?] at hv
    cases hr2 : s.reg2 with
    | none =>
      simp [CodeGenInner.put_in_reg1, CodeGenInner.free_reg, CodeGenInner.load_reg1,
        h1, hr2, hv]
    | some p =>
      obtain ⟨j, d⟩ := p
      have hjv : ¬j = v := by
        intro he
        subst he
        exact h2 d hr2
      simp [CodeGenInner.put_in_reg1, CodeGenInner.free_reg, CodeGenInner.load_reg1,
        h1, hr2, hv, hjv]
  · intro c h1 h2 hv
    rw [List.get?_eq_getElem?] at hv
    cases hr2 : s.reg2 with
    | none =>
      simp [CodeGenInner.put_in_reg1, CodeGenInner.free_reg, CodeGenInner.load_reg1,
        h1, hr2, hv]
    | some p =>
      obtain ⟨j, d⟩ := p
      have hjv : ¬j = v := by
        intro he
        subst he
        exact h2 d hr2
      simp [CodeGenInner.put_in_reg1, CodeGenInner.free_reg, CodeGenInner.load_reg1,
        h1, hr2, hv, hjv]

/-- A state whose register 1 holds the mutable variable 0 dirty. -/
def sW4d : CodeGenInner :=
  ⟨0, [CGValue.Variable DataType.I64 0 false], [], some (0, true), none, [], 8, 8⟩

/-- A state whose register 1 cleanly holds the constant 7 at index 0. -/
def sW4c : CodeGenInner :=
  ⟨0, [CGValue.Constant (ConstValue.I64 7)], [], some (0, false), none, [], 0, 0⟩

/-- C4 witness: the three branches of the amended claim at concrete inputs:
dirty residency is a no-op, clean residency re-emits the stack load for a
Variable and the constant load for a Constant. -/
theorem C4_put_in_reg1_resident_witness :
    (sW4d.reg1 = some (0, true) ∧
      sW4d.values.get? 0 = some (CGValue.Variable DataType.I64 0 false) ∧
      sW4d.put_in_reg1 0 = some sW4d) ∧
    (sW4.reg1 = some (0, false) ∧
      sW4.put_in_reg1 0 = some { sW4 with ops := sW4.ops ++ [CPOp.take1Stack 0] }) ∧
    (sW4c.reg1 = some (0, false) ∧
      sW4c.put_in_reg1 0 =
        some { sW4c with ops := sW4c.ops ++ [CPOp.take1Const (ConstValue.I64 7)] }) := by
  refine ⟨⟨rfl, rfl, ?_⟩, ⟨rfl, ?_⟩, ⟨rfl, ?_⟩⟩
  · exact (C4_put_in_reg1_resident sW4d 0).1 DataType.I64 0 rfl rfl
  · exact (C4_put_in_reg1_resident sW4 0).2.1 DataType.I64 0 true rfl
      (by intro d hcon; exact Option.noConfusion hcon) rfl
  · exact (C4_put_in_reg1_resident sW4c 0).2.2 (ConstValue.I64 7) rfl
      (by intro d hcon; exact Option.noConfusion hcon) rfl

/-- The state of a one-argument session after computing r = arg0 + 1: the
result holds index 2 with canonical stack offset 8 and sits dirty in
register 1. -/
def sC5 : CodeGenInner :=
  (((((CodeGenInner.new 1).new_i64_const 1).2).add 0 1).map Prod.snd).getD (CodeGenInner.new 0)

/-- The clone-independence scenario of the specification: one argument,
b = clone(arg0), r1 = arg0 + 1, r2 = b + 2, return r2, invoked with
arg0 = 10; the specification expects the result 12. -/
def c5CloneScenario : Option Int :=
  let s0 := CodeGenInner.new 1
  match s0.clone_value 0 with
  | none => none
  | some (b, s1) =>
    let p1 := s1.new_i64_const 1
    match p1.2.add 0 p1.1 with
    | none => none
    | some (_, s2) =>
      let p2 := s2.new_i64_const 2
      match p2.2.add b p2.1 with
      | none => none
      | some (r2, s3) =>
        match s3.generate_return r2 with
        | none => none
        | some s4 => some (callGenerated s4.generate_code [10])

/-- C5 (code bug): cloning the Variable at index 2 (canonical stack offset 8)
while it sits dirty in register 1 emits put_stack with offset 2 — the
value-table index — instead of the canonical offset 8, so the original's
stack copy is not made correct; consequently the specification's
clone-independence scenario, which must yield 12, yields 2 under the
spec-modelled backend semantics. -/
theorem C5_clone_spills_wrong_offset :
    sC5.reg1 = some (2, true) ∧
    sC5.values.get? 2 = some (CGValue.Variable DataType.I64 8 false) ∧
    (sC5.clone_value 2).map (fun p => p.2.ops.drop sC5.ops.length) =
      some [CPOp.putStack 2] ∧
    c5CloneScenario = some 2 := by
  exact ⟨rfl, rfl, rfl, rfl⟩

/-- C6: adding to a value whose index refers to a readonly argument yields a
new index distinct from the argument's, and the argument's own value-table
entry (type, stack offset and readonly flag) is unchanged by the operation. -/
theorem C6_copy_on_mutate_readonly_arg {s : CodeGenInner} {l r res : Nat} {s' : CodeGenInner}
    {dt : DataType} {sp : Nat}
    (hro : s.values.get? l = some (CGValue.Variable dt sp true))
    (h : s.add l r = some (res, s')) :
    res ≠ l ∧ s'.values.get? l = some (CGValue.Variable dt sp true) := by
  obtain ⟨_, h2, _⟩ := CodeGenInner.add_cases h
  obtain ⟨hne, hkeep, _⟩ := h2 dt sp hro
  exact ⟨hne, hkeep⟩

/-- C6 witness: adding constant 3 to the readonly argument 0 returns the
fresh index 2 and leaves the argument's entry untouched. -/
theorem C6_copy_on_mutate_readonly_arg_witness :
    sW6.values.get? 0 = some (CGValue.Variable DataType.I64 0 true) ∧
    (2 : Nat) ≠ 0 ∧ sW6'.values.get? 0 = some (CGValue.Variable DataType.I64 0 true) := by
  refine ⟨by rfl, ?_, ?_⟩
  · exact (C6_copy_on_mutate_readonly_arg (by rfl)
      (by rfl : sW6.add 0 1 = some (2, sW6'))).1
  · exact (C6_copy_on_mutate_readonly_arg (by rfl)
      (by rfl : sW6.add 0 1 = some (2, sW6'))).2

/-- C7: freeing the mutable value at index x and then allocating reuses x and
its previous stack offset: no entry is appended to the value table, no new
stack offset is carved out, and the free list is restored. -/
theorem C7_free_list_lifo {s : CodeGenInner} {x : Nat} {dt dt2 : DataType} {sp : Nat}
    (h : s.values.get? x = some (CGValue.Variable dt sp false)) :
    ∃ s1 s2, s.free_value x = some s1 ∧ s1.allocate_stack dt2 = some (x, s2) ∧
      s2.values.get? x = some (CGValue.Variable dt2 sp false) ∧
      s2.stack_ptr = s.stack_ptr ∧ s2.stack_size = s.stack_size ∧
      s2.values.length = s.values.length ∧ s2.free_slots = s.free_slots := by
  have hlt : x < s.values.length := get?_some_lt h
  use { s with values := s.values.set x (CGValue.Free (some sp)), free_slots := x :: s.free_slots }
  use { s with values := (s.values.set x (CGValue.Free (some sp))).set x (CGValue.Variable dt2 sp false) }
  refine ⟨?_, ?_, ?_, rfl, rfl, ?_, rfl⟩
  · unfold CodeGenInner.free_value
    rw [h]
    simp
  · simp [CodeGenInner.allocate_stack, CodeGenInner.allocate_at,
      List.getElem?_set_eq_of_lt _ hlt]
  · have hlt2 : x < (s.values.set x (CGValue.Free (some sp))).length := by
      rw [List.length_set]
      exact hlt
    exact List.get?_set_eq_of_lt _ hlt2
  · simp

/-- A zero-argument session state holding one mutable I64 variable at index 0
with stack offset 0. -/
def sW7 : CodeGenInner :=
  ⟨0, [CGValue.Variable DataType.I64 0 false], [], none, none, [], 8, 8⟩

/-- C7 witness: freeing index 0 of sW7 and reallocating (with a different
type) reuses index 0 and offset 0, leaves the next-free-offset pointer and
the table length unchanged. -/
theorem C7_free_list_lifo_witness :
    sW7.values.get? 0 = some (CGValue.Variable DataType.I64 0 false) ∧
    ((sW7.free_value 0).bind (fun t => t.allocate_stack DataType.Bool)).map
        (fun p => (p.1, p.2.stack_ptr, p.2.values.length, p.2.values.get? 0)) =
      some (0, 8, 1, some (CGValue.Variable DataType.Bool 0 false)) := by
  refine ⟨rfl, ?_⟩
  obtain ⟨s1, s2, hf, ha, hv, hp, hz, hlen, hfs⟩ :=
    C7_free_list_lifo (by rfl : sW7.values.get? 0 =
      some (CGValue.Variable DataType.I64 0 false))
  rw [hf]
  simp only [Option.some_bind]
  rw [ha]
  rw [List.get?_eq_getElem?] at hv
  simp [sW7, hv, hp, hlen]

/-- C8: freeing an index whose value-table entry is already Free leaves the
entire generator state unchanged: no fault, no value change, and no duplicate
push onto the free list. -/
theorem C8_double_free_noop {s : CodeGenInner} {v : Nat} {o : Option Nat}
    (h : s.values.get? v = some (CGValue.Free o)) :
    s.free_value v = some s := by
  unfold CodeGenInner.free_value
  rw [h]

/-- A state whose index 0 is already Free and already on the free list. -/
def sW8 : CodeGenInner := ⟨0, [CGValue.Free (some 0)], [0], none, none, [], 8, 8⟩

/-- C8 witness: double-freeing index 0 of sW8 returns the state unchanged. -/
theorem C8_double_free_noop_witness :
    sW8.values.get? 0 = some (CGValue.Free (some 0)) ∧ sW8.free_value 0 = some sW8 :=
  ⟨rfl, C8_double_free_noop rfl⟩

/-- C9 (code bug): GeneratedCode::new never inspects the results of its three
memory mappings; when all of them fail, construction still succeeds and
returns a plain record holding the MAP_FAILED sentinel pointers — no distinct
error result exists in its return type. -/
theorem C9_mmap_failure_not_surfaced :
    GeneratedCode.new none none none 4 =
      { stack := MAP_FAILED, code := MAP_FAILED, code_len := 4, ghcc_code := MAP_FAILED } := by
  rfl

/-- A zero-argument session holding the constant 7 at index 0. -/
def sC10 : Nat × CodeGenInner := (CodeGenInner.new 0).new_i64_const 7

/-- C10: get_arg(n) wraps the raw index n in an I64 handle without any bounds
check and without touching the session state; in particular, on a
zero-argument session holding a constant at index 0, get_arg(0) hands back a
handle whose index is the constant's index. -/
theorem C10_get_arg_unchecked :
    (∀ (s : CodeGenInner) (n : Nat),
        (CodeGen.get_arg s n).1 = { i := n, data_type := DataType.I64 } ∧
        (CodeGen.get_arg s n).2 = s) ∧
    (CodeGen.get_arg sC10.2 sC10.1).1.i = sC10.1 ∧
    sC10.2.values.get? sC10.1 = some (CGValue.Constant (ConstValue.I64 7)) ∧
    sC10.2.args_size ≤ sC10.1 := by
  exact ⟨fun s n => ⟨rfl, rfl⟩, rfl, rfl, by decide⟩
